import Mathlib

/-!
# Verification of the gen_video frame-chaining pipeline

Shallow embedding of the core pipeline of the `gen_video` repository
(`video_pipeline/videos.py`, `video_pipeline/images.py`,
`video_pipeline/ffmpeg_utils.py`, `video_pipeline/prompts.py`), together
with proofs and refutations of the specification's claims about it.

External effects (the generative-API client, the ffmpeg subprocess, the
filesystem) are modelled explicitly: network generators become function
parameters whose calls are recorded in a trace, the filesystem becomes an
association list from path to byte content, and subprocess behaviour
becomes an environment record.  Python strings are Lean `String`s, byte
blobs are `List Nat`, and Python `dict`s are association lists with
replace-or-append update (insertion order preserved, later assignment
wins), matching CPython semantics for the operations the code performs.
-/

set_option autoImplicit false

namespace GenVideo

/-- Byte blobs (image/video contents) are modelled as lists of bytes. -/
abbrev Bytes := List Nat

/-- Python `d.get(k)` on an association-list dict: first matching key wins
(keys are unique in a dict, so first = only). -/
def lookupA {α : Type} (m : List (String × α)) (k : String) : Option α :=
  match m with
  | [] => none
  | (k₀, v₀) :: rest => if k₀ = k then some v₀ else lookupA rest k

/-- Python `d[k] = v` on an association-list dict: replace the existing
binding in place, or append a new one (dicts preserve insertion order). -/
def updateA {α : Type} (m : List (String × α)) (k : String) (v : α) : List (String × α) :=
  match m with
  | [] => [(k, v)]
  | (k₀, v₀) :: rest => if k₀ = k then (k₀, v) :: rest else (k₀, v₀) :: updateA rest k v

/-- Python `x or d` for an optional string `x`: `None` and the empty
string are falsy, any other string is returned as is. -/
def pyOr (o : Option String) (d : String) : String :=
  match o with
  | none => d
  | some s => if s = "" then d else s

/-- A frame descriptor as consumed by `videos.py` / `images.py`:
a dict with optional `id`, `prompt` and `change_from_previous` entries
(`none` models both a missing key and an explicit `null`, which the
`frame.get(...) or default` accesses treat identically). -/
structure Frame where
  id : Option String
  prompt : Option String
  change_from_previous : Option String
deriving Repr, DecidableEq, Inhabited

/-- Python `f"{idx:03d}"`: decimal rendering left-padded with zeros to
width 3 (indexes here are nonnegative). -/
def pad3 (n : Nat) : String :=
  let s := toString n
  if s.length ≥ 3 then s else String.mk (List.replicate (3 - s.length) '0') ++ s

/-! ## videos.py — `generate_all_segments`

`generate_segment_for_pair` (network call, retries, polling) and
`extract_last_frame` (ffmpeg) are abstracted into an oracle whose two
fields give the value each call returns; `generate_all_segments` itself
is translated line by line and additionally records the argument trace of
every `generate_segment_for_pair` call, which is what the chaining claims
quantify over.  In the source, `generate_segment_for_pair` returns
`str(output_path)` on success and `extract_last_frame` returns its
`output_image_path`; `realOracle` is that behaviour. -/

/-- The two external operations `generate_all_segments` invokes:
`genClip frame1 frame2 motion outputPath` is the clip path returned by
`generate_segment_for_pair`, `lastFrame videoPath outputImagePath` the
image path returned by `extract_last_frame`. -/
structure SegOracle where
  genClip : String → String → String → String → String
  lastFrame : String → String → String

/-- On success `generate_segment_for_pair` returns `str(output_path)`
(videos.py line 145) and `extract_last_frame` returns
`output_image_path` (ffmpeg_utils.py lines 50/52). -/
def realOracle : SegOracle :=
  ⟨fun _ _ _ out => out, fun _ out => out⟩

/-- One recorded call to `generate_segment_for_pair`, together with the
clip path it returned and the `_last.png` path subsequently handed to
`extract_last_frame` for that clip. -/
structure SegCall where
  startImage : String
  endImage : String
  motion : String
  outputPath : String
  generated : String
  lastImagePath : String
deriving Repr, DecidableEq, Inhabited

/-- Errors raised by the embedded pipeline functions. -/
inductive PipelineError where
  | valueError (msg : String)
  | keyError (msg : String)
deriving Repr, DecidableEq

/-- Effective id of the frame at 0-based position `pos` in
`generate_all_segments`: `frame.get("id") or f"F{pos}"`. -/
def effIdV (f : Frame) (pos : Nat) : String :=
  pyOr f.id ("F" ++ toString pos)

/-- The `for idx in range(len(frames) - 1)` loop body of
`generate_all_segments` (videos.py lines 189-211), recursing over the
frames after the first.  `idx` is the loop counter, `firstId` the id of
the left frame of the current pair, `currentStart` the running
`current_start_image`.  Returns the calls issued so far and either the
collected clip paths or the error that aborted the loop. -/
def segLoop (oracle : SegOracle) (map : List (String × String)) (segDir : String) :
    List Frame → Nat → String → String →
      List SegCall × Except PipelineError (List String)
  | [], _, _, _ => ([], .ok [])
  | second :: rest, idx, firstId, currentStart =>
    let secondId := effIdV second (idx + 1)
    match lookupA map secondId with
    | none =>
      ([], .error (.keyError ("frame_image_paths is missing image for frame id=" ++ secondId)))
    | some secondPath =>
      let motion := pyOr second.change_from_previous "smooth continuation"
      let base := segDir ++ "/segment_" ++ pad3 idx ++ "_" ++ firstId ++ "_" ++ secondId
      let segPath := base ++ ".mp4"
      let generated := oracle.genClip currentStart secondPath motion segPath
      let lastImg := base ++ "_last.png"
      let nextStart := oracle.lastFrame generated lastImg
      let call : SegCall := ⟨currentStart, secondPath, motion, segPath, generated, lastImg⟩
      let r := segLoop oracle map segDir rest (idx + 1) secondId nextStart
      (call :: r.1,
       match r.2 with
       | .ok clips => .ok (generated :: clips)
       | .error e => .error e)

/-- `generate_all_segments` (videos.py lines 164-212): validates the
frame count, resolves the first frame's image, then runs the pair loop.
The pair is (trace of `generate_segment_for_pair` calls, clip-path list
or error). -/
def generate_all_segments (oracle : SegOracle) (map : List (String × String))
    (frames : List Frame) (outputDir : String) :
    List SegCall × Except PipelineError (List String) :=
  let segDir := outputDir ++ "/segments"
  match frames with
  | [] => ([], .error (.valueError "At least 2 frames are required to generate segments."))
  | [_] => ([], .error (.valueError "At least 2 frames are required to generate segments."))
  | firstFrame :: rest =>
    let firstId := effIdV firstFrame 0
    match lookupA map firstId with
    | none =>
      ([], .error (.keyError ("frame_image_paths is missing image for first frame id=" ++ firstId)))
    | some firstPath =>
      segLoop oracle map segDir rest 0 firstId firstPath

/-- Every frame after the first (listed with the loop offset `idx`) has
an image entry under its effective id. -/
def restIdsPresent (map : List (String × String)) : List Frame → Nat → Bool
  | [], _ => true
  | f :: rest, idx =>
    (lookupA map (effIdV f (idx + 1))).isSome && restIdsPresent map rest (idx + 1)

/-- Every descriptor id of the frames list (under the positional default
ids `generate_all_segments` uses) has an entry in the image map. -/
def allIdsPresent (map : List (String × String)) (frames : List Frame) : Bool :=
  match frames with
  | [] => true
  | f :: rest => (lookupA map (effIdV f 0)).isSome && restIdsPresent map rest 0

/-! ## images.py — storyboard generation and regeneration

The image-generation call (`_generate_image_bytes`, which wraps the
network client with a retry loop and returns the produced bytes) is
abstracted into a function `gen : prompt → anchor list → bytes`; the
claims quantify over it.  Each call's arguments are recorded in a trace.
For `regenerate_storyboard_images` the filesystem is modelled as an
association list from path to byte content (`write_bytes` = `updateA`,
`read_bytes` = `lookupA`, `exists()` = `isSome`). -/

/-- One recorded call to the image generator: the composed prompt text
and the anchor list handed to it. -/
structure ImgCall where
  prompt : String
  refs : List Bytes
deriving Repr, DecidableEq, Inhabited

/-- `_compose_image_prompt` (images.py lines 100-109): prefer the
frame's prompt text; fall back to `change_from_previous`, then to a
fixed default. -/
def compose_image_prompt (f : Frame) : String :=
  let base := pyOr f.prompt ""
  if base ≠ "" then base
  else pyOr f.change_from_previous "incremental change from previous frame"

/-- Effective id of a frame in images.py: `frame.get("id") or "X"`. -/
def effIdI (f : Frame) : String :=
  pyOr f.id "X"

/-- The per-frame loop of `generate_storyboard_images` (images.py lines
183-196).  `generated` is the accumulator of previously generated byte
blobs, `paths` the frame-id → path dict built so far.  The file write of
each image is reflected in the returned dict (no claim about this
function observes the filesystem itself). -/
def sbLoop (gen : String → List Bytes → Bytes) (framesDir : String) (refs : List Bytes) :
    List Frame → List Bytes → List (String × String) →
      List (String × String) × List ImgCall
  | [], _, paths => (paths, [])
  | f :: rest, generated, paths =>
    let fid := effIdI f
    let promptText := compose_image_prompt f
    let refList := refs ++ generated
    let imageBytes := gen promptText refList
    let path := framesDir ++ "/frame_" ++ fid ++ ".png"
    let r := sbLoop gen framesDir refs rest (generated ++ [imageBytes]) (updateA paths fid path)
    (r.1, ⟨promptText, refList⟩ :: r.2)

/-- `generate_storyboard_images` (images.py lines 156-197).  `refImage`
is the byte content of the optional reference image (the source reads it
from `ref_image_path`; `none` models an absent/falsy path). -/
def generate_storyboard_images (gen : String → List Bytes → Bytes) (frames : List Frame)
    (outputDir : String) (refImage : Option Bytes) :
    List (String × String) × List ImgCall :=
  sbLoop gen (outputDir ++ "/frames") refImage.toList frames [] []

/-- Filesystem model for regeneration: association list path → bytes. -/
abbrev FS := List (String × Bytes)

/-- The effective image path regeneration uses for frame id `i`:
`frame_image_paths.get(i, frames_dir / f"frame_{i}.png")`. -/
def effPathOfId (origMap : List (String × String)) (framesDir : String) (i : String) : String :=
  (lookupA origMap i).getD (framesDir ++ "/frame_" ++ i ++ ".png")

/-- The per-frame loop of `regenerate_storyboard_images` (images.py
lines 232-252): regenerate (and write) when the id is targeted or its
file is absent, otherwise read the existing file to extend the anchor
accumulator; record the path in the updated dict either way. -/
def regenLoop (gen : String → List Bytes → Bytes) (framesDir : String) (targets : List String)
    (origMap : List (String × String)) (refs : List Bytes) :
    List Frame → List Bytes → FS → List (String × String) →
      FS × List (String × String)
  | [], _, fs, updated => (fs, updated)
  | f :: rest, generated, fs, updated =>
    let fid := effIdI f
    let existingPath := effPathOfId origMap framesDir fid
    if targets.contains fid || (lookupA fs existingPath).isNone then
      let promptText := compose_image_prompt f
      let refList := refs ++ generated
      let imageBytes := gen promptText refList
      regenLoop gen framesDir targets origMap refs rest (generated ++ [imageBytes])
        (updateA fs existingPath imageBytes) (updateA updated fid existingPath)
    else
      let imageBytes := (lookupA fs existingPath).getD []
      regenLoop gen framesDir targets origMap refs rest (generated ++ [imageBytes])
        fs (updateA updated fid existingPath)

/-- `regenerate_storyboard_images` (images.py lines 200-254): the
updated dict starts as a copy of `frameImagePaths`, the target-id set is
the supplied list, and the loop threads the filesystem through.  Returns
the final filesystem and the returned path dict. -/
def regenerate_storyboard_images (gen : String → List Bytes → Bytes) (frames : List Frame)
    (frameImagePaths : List (String × String)) (runDir : String) (frameIds : List String)
    (refImage : Option Bytes) (fs : FS) :
    FS × List (String × String) :=
  regenLoop gen (runDir ++ "/frames") frameIds frameImagePaths refImage.toList
    frames [] fs frameImagePaths

/-! ## ffmpeg_utils.py — `concat_clips`

The subprocess layer becomes an environment record: whether the `ffmpeg`
binary can be spawned at all (`subprocess.run` raises
`FileNotFoundError` otherwise), and the return code / stderr of the
stream-copy attempt and of the re-encode fallback.  The result records
the raised-or-returned outcome, whether the paths manifest was created
and whether it was removed again (the `finally: unlink`), and how many
ffmpeg processes actually ran. -/

/-- Behaviour of the external ffmpeg tool for one `concat_clips` call. -/
structure FFmpegEnv where
  binaryPresent : Bool
  copyReturncode : Nat
  copyStderr : String
  reencodeReturncode : Nat
  reencodeStderr : String
deriving Repr, DecidableEq

/-- What `concat_clips` returns or raises. -/
inductive ConcatOutcome where
  | ok (path : String)
  | valueError (msg : String)
  | fileNotFoundError (msg : String)
  | runtimeError (msg : String)
deriving Repr, DecidableEq

/-- Observable result of one `concat_clips` call. -/
structure ConcatResult where
  outcome : ConcatOutcome
  manifestCreated : Bool
  manifestRemoved : Bool
  toolRuns : Nat
deriving Repr, DecidableEq

/-- `concat_clips` (ffmpeg_utils.py lines 62-125).  `existsF` is
`Path.exists` on the (resolved) clip paths.  Validation happens before
the manifest is written; a missing binary aborts the first
`subprocess.run` with `FileNotFoundError`, which propagates, while the
`finally` block removes the manifest in every post-manifest branch. -/
def concat_clips (env : FFmpegEnv) (existsF : String → Bool) (clipPaths : List String)
    (outputPath : String) (reencodeOnFailure : Bool) : ConcatResult :=
  if clipPaths = [] then
    ⟨.valueError "No clip paths provided for concatenation", false, false, 0⟩
  else
    match clipPaths.find? (fun c => !(existsF c)) with
    | some c => ⟨.fileNotFoundError ("Clip not found: " ++ c), false, false, 0⟩
    | none =>
      if env.binaryPresent then
        if env.copyReturncode ≠ 0 ∧ reencodeOnFailure = true then
          if env.reencodeReturncode ≠ 0 then
            ⟨.runtimeError ("ffmpeg concat failed: " ++ env.reencodeStderr), true, true, 2⟩
          else
            ⟨.ok outputPath, true, true, 2⟩
        else
          if env.copyReturncode ≠ 0 then
            ⟨.runtimeError ("ffmpeg concat failed: " ++ env.copyStderr), true, true, 1⟩
          else
            ⟨.ok outputPath, true, true, 1⟩
      else
        ⟨.fileNotFoundError "ffmpeg", true, true, 0⟩

/-! ## prompts.py — `generate_frame_prompts`

The text-generation client call is replaced by the response text it
eventually yields; `json.loads` is abstracted into a parameter
`parse : String → Option PData` (`none` models a `JSONDecodeError`),
where `PData` is the shape the code consumes: a parsed object whose
`"frames"` entry (after `prompts_data.get("frames") or []`) is a list of
frame dicts with null-or-string values.  The brace-extraction logic of
`_extract_json` is translated literally.  The result records the frames
list of the returned `prompts_data` and whether the service call was
reached (validation errors fire before it). -/

/-- JSON scalar values the frame dicts carry. -/
inductive JValue where
  | null
  | str (s : String)
deriving Repr, DecidableEq, Inhabited

/-- A parsed frame entry: a JSON object as an association list. -/
abbrev FrameObj := List (String × JValue)

/-- The parsed model response as consumed by `generate_frame_prompts`:
`frames` is `prompts_data.get("frames") or []`. -/
structure PData where
  frames : List FrameObj
deriving Repr, DecidableEq, Inhabited

/-- Python `str.strip()` (no arguments): remove whitespace from both
ends.  Implemented over the character list so that it evaluates by
kernel reduction. -/
def pyTrim (s : String) : String :=
  String.mk (((s.toList.dropWhile Char.isWhitespace).reverse.dropWhile
    Char.isWhitespace).reverse)

/-- Python `str.strip("`")`: remove backticks from both ends. -/
def stripBackticks (s : String) : String :=
  let l := (s.toList.dropWhile (fun c => c = '`'))
  String.mk ((l.reverse.dropWhile (fun c => c = '`')).reverse)

/-- `re.sub(r"^json", "", s, flags=re.IGNORECASE)`: drop one leading
case-insensitive `json`. -/
def dropJsonPrefix (s : String) : String :=
  if (s.toList.take 4).map Char.toLower = ['j', 's', 'o', 'n'] then
    String.mk (s.toList.drop 4)
  else s

/-- The code-fence cleanup at the top of `_extract_json` (prompts.py
lines 62-65). -/
def cleanFences (text : String) : String :=
  let cleaned := pyTrim text
  if cleaned.toList.take 3 = ['`', '`', '`'] then
    pyTrim ((stripBackticks cleaned) |> dropJsonPrefix)
  else cleaned

/-- `re.search(r"\x7b.*\x7d", cleaned, flags=re.DOTALL)`: with a greedy
dot-matches-all wildcard this matches from the first opening brace to
the last closing brace, provided the first opening brace lies strictly
before the last closing brace. -/
def braceSpan (s : String) : Option String :=
  let l := s.toList
  match l.findIdx? (fun c => c = '{') with
  | none => none
  | some i =>
    match l.reverse.findIdx? (fun c => c = '}') with
    | none => none
    | some rj =>
      let j := l.length - 1 - rj
      if i < j then some (String.mk ((l.drop i).take (j - i + 1))) else none

/-- `_extract_json` (prompts.py lines 61-69): clean fences, locate the
brace span, then `json.loads` it. -/
def extractJson (parse : String → Option PData) (text : String) : Except String PData :=
  match braceSpan (cleanFences text) with
  | none => .error "Model response did not contain JSON content"
  | some sub =>
    match parse sub with
    | none => .error "json.loads: invalid JSON"
    | some d => .ok d

/-- `_letters_sequence` (prompts.py lines 16-22): the first `count`
uppercase letters, erroring past the 26-letter alphabet. -/
def lettersSequence (count : Nat) : Except String (List String) :=
  if count < 1 then .ok []
  else if 26 < count then .error "num_frames exceeds supported frame labels"
  else .ok (((List.range 26).map (fun i => String.mk [Char.ofNat (65 + i)])).take count)

/-- Python `dict.setdefault`: keep an existing entry (even an explicit
`null`), else append the default. -/
def setdefaultA (d : FrameObj) (k : String) (v : JValue) : FrameObj :=
  if (lookupA d k).isSome then d else d ++ [(k, v)]

/-- The backfill text used for non-first frames. -/
def fallbackChange : String :=
  "visible pose/camera/environment change from the previous frame"

/-- The `for idx, expected_id in enumerate(expected_ids)` backfill loop
of `generate_frame_prompts` (prompts.py lines 136-155): patch existing
entries with `setdefault`, append fully synthesized descriptors past the
end. -/
def backfillLoop (theme : String) : List String → Nat → List FrameObj → List FrameObj
  | [], _, fs => fs
  | lbl :: rest, idx, fs =>
    if idx < fs.length then
      let f := fs.getD idx []
      let f1 := setdefaultA f "id" (.str lbl)
      let f2 := setdefaultA f1 "change_from_previous"
        (if idx = 0 then .null else .str fallbackChange)
      backfillLoop theme rest (idx + 1) (fs.set idx f2)
    else
      backfillLoop theme rest (idx + 1)
        (fs ++ [[("id", JValue.str lbl),
                 ("prompt", JValue.str (theme ++ " frame " ++ lbl ++ " in consistent style.")),
                 ("change_from_previous", if idx = 0 then JValue.null else .str fallbackChange)]])

/-- `Except` values with decidable components have decidable equality
(needed so that concrete outcomes can be checked by `decide`). -/
instance exceptDecEq {ε α : Type} [DecidableEq ε] [DecidableEq α] :
    DecidableEq (Except ε α) := fun x y =>
  match x, y with
  | .ok a, .ok b => decidable_of_iff (a = b) (by simp)
  | .error a, .error b => decidable_of_iff (a = b) (by simp)
  | .ok _, .error _ => isFalse (by simp)
  | .error _, .ok _ => isFalse (by simp)

/-- Result of `generate_frame_prompts`: the frames list stored into the
returned `prompts_data` (or the raised error), plus whether the
text-generation service call was reached. -/
structure PromptsOutcome where
  result : Except PipelineError (List FrameObj)
  serviceCalled : Bool
deriving Repr, DecidableEq

/-- `generate_frame_prompts` (prompts.py lines 82-157): the `< 2` guard
fires first; `_build_prompt` (which calls `_letters_sequence`) runs
before the service call, so an over-long count also errors without
calling the service; afterwards the response text is JSON-extracted and
the frames are backfilled and truncated to `numFrames`. -/
def generate_frame_prompts (parse : String → Option PData) (serviceResponseText : String)
    (theme : String) (numFrames : Nat) : PromptsOutcome :=
  if numFrames < 2 then
    ⟨.error (.valueError "num_frames must be at least 2"), false⟩
  else
    match lettersSequence numFrames with
    | .error e => ⟨.error (.valueError e), false⟩
    | .ok labels =>
      match extractJson parse serviceResponseText with
      | .error e => ⟨.error (.valueError e), true⟩
      | .ok pdata =>
        ⟨.ok ((backfillLoop theme labels 0 pdata.frames).take numFrames), true⟩

/-! ## Helper lemmas -/

theorem updateA_lookup_self {α : Type} (m : List (String × α)) (k : String) (v : α) :
    lookupA (updateA m k v) k = some v := by
  induction m with
  | nil => simp [lookupA, updateA]
  | cons hd tl ih =>
    obtain ⟨k₀, v₀⟩ := hd
    by_cases h : k₀ = k
    · simp [lookupA, updateA, h]
    · simp [lookupA, updateA, h, ih]

theorem updateA_lookup_other {α : Type} (m : List (String × α)) (k q : String) (v : α)
    (h : q ≠ k) : lookupA (updateA m k v) q = lookupA m q := by
  induction m with
  | nil => simp [lookupA, updateA, Ne.symm h]
  | cons hd tl ih =>
    obtain ⟨k₀, v₀⟩ := hd
    by_cases hk : k₀ = k
    · subst hk
      simp [lookupA, updateA, Ne.symm h]
    · simp only [updateA, if_neg hk, lookupA]
      by_cases hq : k₀ = q
      · simp [hq]
      · simp [hq, ih]

theorem updateA_lookup_isSome {α : Type} (m : List (String × α)) (k q : String) (v : α)
    (h : (lookupA m q).isSome) : (lookupA (updateA m k v) q).isSome := by
  by_cases hq : q = k
  · subst hq; rw [updateA_lookup_self]; rfl
  · rw [updateA_lookup_other m k q v hq]; exact h

/-! ## Lemmas about `segLoop` -/

theorem segLoop_head_start (o : SegOracle) (m : List (String × String)) (d : String)
    (list : List Frame) (idx : Nat) (fid st : String)
    (h : 0 < (segLoop o m d list idx fid st).1.length) :
    ((segLoop o m d list idx fid st).1.getD 0 default).startImage = st := by
  cases list with
  | nil => simp [segLoop] at h
  | cons second rest =>
    cases hl : lookupA m (effIdV second (idx + 1)) with
    | none => simp [segLoop, hl] at h
    | some p => simp [segLoop, hl]

theorem segLoop_start_chain (o : SegOracle) (m : List (String × String)) (d : String) :
    ∀ (list : List Frame) (idx : Nat) (fid st : String) (k : Nat),
      k + 1 < (segLoop o m d list idx fid st).1.length →
      ((segLoop o m d list idx fid st).1.getD (k + 1) default).startImage
        = o.lastFrame ((segLoop o m d list idx fid st).1.getD k default).generated
            ((segLoop o m d list idx fid st).1.getD k default).lastImagePath := by
  intro list
  induction list with
  | nil => intro idx fid st k h; simp [segLoop] at h
  | cons second rest ih =>
    intro idx fid st k h
    cases hl : lookupA m (effIdV second (idx + 1)) with
    | none => simp [segLoop, hl] at h
    | some p =>
      simp only [segLoop, hl] at h ⊢
      cases k with
      | zero =>
        simp only [List.getD_cons_succ, List.getD_cons_zero]
        refine segLoop_head_start o m d rest (idx + 1) _ _ ?_
        simpa using Nat.lt_of_succ_lt_succ (by simpa using h)
      | succ k =>
        simp only [List.getD_cons_succ]
        exact ih (idx + 1) _ _ k (by simpa using Nat.lt_of_succ_lt_succ (by simpa using h))

theorem segLoop_ok_clips (o : SegOracle) (m : List (String × String)) (d : String) :
    ∀ (list : List Frame) (idx : Nat) (fid st : String) (clips : List String),
      (segLoop o m d list idx fid st).2 = .ok clips →
      clips = ((segLoop o m d list idx fid st).1).map SegCall.generated := by
  intro list
  induction list with
  | nil =>
    intro idx fid st clips h
    simp [segLoop] at h ⊢
    exact h
  | cons second rest ih =>
    intro idx fid st clips h
    cases hl : lookupA m (effIdV second (idx + 1)) with
    | none => simp [segLoop, hl] at h
    | some p =>
      simp only [segLoop, hl] at h ⊢
      cases hr : (segLoop o m d rest (idx + 1) (effIdV second (idx + 1))
          (o.lastFrame
            (o.genClip st p (pyOr second.change_from_previous "smooth continuation")
              (d ++ "/segment_" ++ pad3 idx ++ "_" ++ fid ++ "_" ++ effIdV second (idx + 1)
                ++ ".mp4"))
            (d ++ "/segment_" ++ pad3 idx ++ "_" ++ fid ++ "_" ++ effIdV second (idx + 1)
              ++ "_last.png"))).2 with
      | ok c =>
        rw [hr] at h
        simp only [Except.ok.injEq] at h
        subst h
        simp only [List.map_cons, List.cons.injEq, true_and]
        exact ih _ _ _ c hr
      | error e => rw [hr] at h; simp at h

theorem segLoop_ok_of_present (m : List (String × String)) (d : String) :
    ∀ (list : List Frame) (idx : Nat) (fid st : String),
      restIdsPresent m list idx = true →
      ∃ clips, (segLoop realOracle m d list idx fid st).2 = .ok clips ∧
        clips.length = list.length ∧
        (∀ k, k < clips.length → ∃ a b,
          clips.getD k "" = d ++ "/segment_" ++ pad3 (idx + k) ++ "_" ++ a ++ "_" ++ b
            ++ ".mp4") := by
  intro list
  induction list with
  | nil =>
    intro idx fid st _
    exact ⟨[], by simp [segLoop]⟩
  | cons second rest ih =>
    intro idx fid st hp
    simp only [restIdsPresent, Bool.and_eq_true] at hp
    obtain ⟨p, hl⟩ := Option.isSome_iff_exists.mp hp.1
    obtain ⟨c, hc, hlen, hshape⟩ := ih (idx + 1) (effIdV second (idx + 1))
      (realOracle.lastFrame
        (realOracle.genClip st p (pyOr second.change_from_previous "smooth continuation")
          (d ++ "/segment_" ++ pad3 idx ++ "_" ++ fid ++ "_" ++ effIdV second (idx + 1)
            ++ ".mp4"))
        (d ++ "/segment_" ++ pad3 idx ++ "_" ++ fid ++ "_" ++ effIdV second (idx + 1)
          ++ "_last.png")) hp.2
    refine ⟨(d ++ "/segment_" ++ pad3 idx ++ "_" ++ fid ++ "_" ++ effIdV second (idx + 1)
      ++ ".mp4") :: c, ?_, ?_, ?_⟩
    · simp only [segLoop, hl]
      rw [hc]
      rfl
    · simpa using hlen
    · intro k hk
      cases k with
      | zero =>
        exact ⟨fid, effIdV second (idx + 1), by simp⟩
      | succ k =>
        obtain ⟨a, b, hab⟩ := hshape k (by simpa using Nat.lt_of_succ_lt_succ hk)
        refine ⟨a, b, ?_⟩
        simp only [List.getD_cons_succ]
        rw [hab]
        have harith : idx + 1 + k = idx + (k + 1) := by omega
        rw [harith]

theorem segLoop_first_missing (o : SegOracle) (m : List (String × String)) (d : String) :
    ∀ (list : List Frame) (idx : Nat) (fid st : String) (j : Nat),
      j < list.length →
      (∀ i, i < j → (lookupA m (effIdV (list.getD i default) (idx + i + 1))).isSome) →
      lookupA m (effIdV (list.getD j default) (idx + j + 1)) = none →
      (segLoop o m d list idx fid st).1.length = j ∧
      (segLoop o m d list idx fid st).2
        = .error (.keyError ("frame_image_paths is missing image for frame id="
            ++ effIdV (list.getD j default) (idx + j + 1))) := by
  intro list
  induction list with
  | nil => intro idx fid st j hj _ _; simp at hj
  | cons second rest ih =>
    intro idx fid st j hj hpre hmiss
    cases j with
    | zero =>
      simp only [List.getD_cons_zero] at hmiss ⊢
      simp [segLoop, hmiss]
    | succ j =>
      have h0 : (lookupA m (effIdV second (idx + 1))).isSome := by
        have := hpre 0 (Nat.succ_pos j)
        simpa using this
      obtain ⟨p, hl⟩ := Option.isSome_iff_exists.mp h0
      have hpre2 : ∀ i, i < j →
          (lookupA m (effIdV (rest.getD i default) (idx + 1 + i + 1))).isSome := by
        intro i hi
        have := hpre (i + 1) (by omega)
        simp only [List.getD_cons_succ] at this
        have harith : idx + (i + 1) + 1 = idx + 1 + i + 1 := by omega
        rwa [harith] at this
      have hmiss2 : lookupA m (effIdV (rest.getD j default) (idx + 1 + j + 1)) = none := by
        simp only [List.getD_cons_succ] at hmiss
        have harith : idx + (j + 1) + 1 = idx + 1 + j + 1 := by omega
        rwa [harith] at hmiss
      obtain ⟨ihlen, iherr⟩ := ih (idx + 1) (effIdV second (idx + 1))
        (o.lastFrame
          (o.genClip st p (pyOr second.change_from_previous "smooth continuation")
            (d ++ "/segment_" ++ pad3 idx ++ "_" ++ fid ++ "_" ++ effIdV second (idx + 1)
              ++ ".mp4"))
          (d ++ "/segment_" ++ pad3 idx ++ "_" ++ fid ++ "_" ++ effIdV second (idx + 1)
            ++ "_last.png")) j (by simpa using Nat.lt_of_succ_lt_succ hj) hpre2 hmiss2
      constructor
      · simp only [segLoop, hl]
        simpa using ihlen
      · simp only [segLoop, hl]
        rw [iherr]
        simp only [List.getD_cons_succ]
        have harith : idx + 1 + j + 1 = idx + (j + 1) + 1 := by omega
        rw [harith]

/-! ## Lemmas about `sbLoop` and `regenLoop` -/

theorem sbLoop_trace (gen : String → List Bytes → Bytes) (fd : String) (refs : List Bytes) :
    ∀ (list : List Frame) (generated : List Bytes) (paths : List (String × String)),
      (sbLoop gen fd refs list generated paths).2.length = list.length ∧
      ∀ i, i < (sbLoop gen fd refs list generated paths).2.length →
        ((sbLoop gen fd refs list generated paths).2.getD i default).refs
          = refs ++ generated
            ++ (((sbLoop gen fd refs list generated paths).2.take i).map
                 (fun c => gen c.prompt c.refs)) := by
  intro list
  induction list with
  | nil =>
    intro generated paths
    refine ⟨rfl, ?_⟩
    intro i hi
    simp [sbLoop] at hi
  | cons f rest ih =>
    intro generated paths
    obtain ⟨ihlen, ihrefs⟩ := ih (generated ++ [gen (compose_image_prompt f) (refs ++ generated)])
      (updateA paths (effIdI f) (fd ++ "/frame_" ++ effIdI f ++ ".png"))
    constructor
    · simpa [sbLoop] using ihlen
    · intro i hi
      cases i with
      | zero => simp [sbLoop]
      | succ i =>
        have hi2 : i < (sbLoop gen fd refs rest
            (generated ++ [gen (compose_image_prompt f) (refs ++ generated)])
            (updateA paths (effIdI f) (fd ++ "/frame_" ++ effIdI f ++ ".png"))).2.length := by
          simp only [sbLoop] at hi
          simpa using Nat.lt_of_succ_lt_succ hi
        have hmain := ihrefs i hi2
        simp only [sbLoop, List.getD_cons_succ, List.take_succ_cons, List.map_cons]
        rw [hmain]
        simp [List.append_assoc]

theorem regenLoop_mono (gen : String → List Bytes → Bytes) (fd : String) (tg : List String)
    (om : List (String × String)) (refs : List Bytes) :
    ∀ (list : List Frame) (generated : List Bytes) (fs : FS)
      (updated : List (String × String)) (p : String),
      (lookupA fs p).isSome →
      (lookupA (regenLoop gen fd tg om refs list generated fs updated).1 p).isSome := by
  intro list
  induction list with
  | nil => intro generated fs updated p h; simpa [regenLoop] using h
  | cons f rest ih =>
    intro generated fs updated p h
    cases hc : (tg.contains (effIdI f) || (lookupA fs (effPathOfId om fd (effIdI f))).isNone) with
    | false =>
      simp only [regenLoop, hc]
      exact ih _ _ _ p h
    | true =>
      simp only [regenLoop, hc]
      exact ih _ _ _ p (updateA_lookup_isSome fs _ p _ h)

theorem regenLoop_preserve (gen : String → List Bytes → Bytes) (fd : String) (tg : List String)
    (om : List (String × String)) (refs : List Bytes) :
    ∀ (list : List Frame) (generated : List Bytes) (fs : FS)
      (updated : List (String × String)) (p : String),
      (∀ g, g ∈ list → effPathOfId om fd (effIdI g) = p → tg.contains (effIdI g) = false) →
      (lookupA fs p).isSome →
      lookupA (regenLoop gen fd tg om refs list generated fs updated).1 p = lookupA fs p := by
  intro list
  induction list with
  | nil => intro generated fs updated p _ _; simp [regenLoop]
  | cons f rest ih =>
    intro generated fs updated p hall hsome
    by_cases hp : effPathOfId om fd (effIdI f) = p
    · have hnt : tg.contains (effIdI f) = false := hall f (by simp) hp
      have hcond : (tg.contains (effIdI f)
          || (lookupA fs (effPathOfId om fd (effIdI f))).isNone) = false := by
        rw [hnt, hp]
        simp [Option.isNone_iff_eq_none]
        exact Option.isSome_iff_exists.mp hsome |>.elim (fun v hv => by simp [hv])
      simp only [regenLoop, hcond]
      exact ih _ _ _ p (fun g hg => hall g (by simp [hg])) hsome
    · cases hc : (tg.contains (effIdI f)
          || (lookupA fs (effPathOfId om fd (effIdI f))).isNone) with
      | false =>
        simp only [regenLoop, hc]
        exact ih _ _ _ p (fun g hg => hall g (by simp [hg])) hsome
      | true =>
        simp only [regenLoop, hc, if_true]
        have hother := updateA_lookup_other fs (effPathOfId om fd (effIdI f)) p
          (gen (compose_image_prompt f) (refs ++ generated)) (fun hpe => hp hpe.symm)
        rw [ih _ _ _ p (fun g hg => hall g (by simp [hg])) (by rw [hother]; exact hsome)]
        exact hother

theorem regenLoop_exists_after (gen : String → List Bytes → Bytes) (fd : String)
    (tg : List String) (om : List (String × String)) (refs : List Bytes) :
    ∀ (list : List Frame) (generated : List Bytes) (fs : FS)
      (updated : List (String × String)) (g : Frame), g ∈ list →
      (lookupA (regenLoop gen fd tg om refs list generated fs updated).1
        (effPathOfId om fd (effIdI g))).isSome := by
  intro list
  induction list with
  | nil => intro generated fs updated g hg; simp at hg
  | cons f rest ih =>
    intro generated fs updated g hg
    rcases List.mem_cons.mp hg with hgf | hgr
    · subst hgf
      cases hc : (tg.contains (effIdI g)
          || (lookupA fs (effPathOfId om fd (effIdI g))).isNone) with
      | false =>
        simp only [regenLoop, hc]
        have : (lookupA fs (effPathOfId om fd (effIdI g))).isSome := by
          simp only [Bool.or_eq_false_iff] at hc
          simpa [Option.isSome_iff_ne_none, Option.isNone_iff_eq_none] using hc.2
        exact regenLoop_mono gen fd tg om refs rest _ _ _ _ this
      | true =>
        simp only [regenLoop, hc]
        exact regenLoop_mono gen fd tg om refs rest _ _ _ _
          (by rw [updateA_lookup_self]; rfl)
    · cases hc : (tg.contains (effIdI f)
          || (lookupA fs (effPathOfId om fd (effIdI f))).isNone) with
      | false =>
        simp only [regenLoop, hc]
        exact ih _ _ _ g hgr
      | true =>
        simp only [regenLoop, hc]
        exact ih _ _ _ g hgr

theorem regenLoop_updated_stable (gen : String → List Bytes → Bytes) (fd : String)
    (tg : List String) (om : List (String × String)) (refs : List Bytes) :
    ∀ (list : List Frame) (generated : List Bytes) (fs : FS)
      (updated : List (String × String)) (k : String),
      lookupA updated k = some (effPathOfId om fd k) →
      lookupA (regenLoop gen fd tg om refs list generated fs updated).2 k
        = some (effPathOfId om fd k) := by
  intro list
  induction list with
  | nil => intro generated fs updated k h; simpa [regenLoop] using h
  | cons f rest ih =>
    intro generated fs updated k h
    have hstep : lookupA (updateA updated (effIdI f) (effPathOfId om fd (effIdI f))) k
        = some (effPathOfId om fd k) := by
      by_cases hk : effIdI f = k
      · rw [hk, updateA_lookup_self]
      · rw [updateA_lookup_other updated (effIdI f) k _ (fun hc => hk hc.symm)]
        exact h
    cases hc : (tg.contains (effIdI f)
        || (lookupA fs (effPathOfId om fd (effIdI f))).isNone) with
    | false =>
      simp only [regenLoop, hc]
      exact ih _ _ _ k hstep
    | true =>
      simp only [regenLoop, hc]
      exact ih _ _ _ k hstep

theorem regenLoop_updated_entry (gen : String → List Bytes → Bytes) (fd : String)
    (tg : List String) (om : List (String × String)) (refs : List Bytes) :
    ∀ (list : List Frame) (generated : List Bytes) (fs : FS)
      (updated : List (String × String)) (g : Frame), g ∈ list →
      lookupA (regenLoop gen fd tg om refs list generated fs updated).2 (effIdI g)
        = some (effPathOfId om fd (effIdI g)) := by
  intro list
  induction list with
  | nil => intro generated fs updated g hg; simp at hg
  | cons f rest ih =>
    intro generated fs updated g hg
    rcases List.mem_cons.mp hg with hgf | hgr
    · subst hgf
      cases hc : (tg.contains (effIdI g)
          || (lookupA fs (effPathOfId om fd (effIdI g))).isNone) with
      | false =>
        simp only [regenLoop, hc]
        exact regenLoop_updated_stable gen fd tg om refs rest _ _ _ _
          (by rw [updateA_lookup_self])
      | true =>
        simp only [regenLoop, hc]
        exact regenLoop_updated_stable gen fd tg om refs rest _ _ _ _
          (by rw [updateA_lookup_self])
    · cases hc : (tg.contains (effIdI f)
          || (lookupA fs (effPathOfId om fd (effIdI f))).isNone) with
      | false =>
        simp only [regenLoop, hc]
        exact ih _ _ _ g hgr
      | true =>
        simp only [regenLoop, hc]
        exact ih _ _ _ g hgr

/-! ## Lemmas about `lettersSequence` and `backfillLoop` -/

theorem lettersSequence_ok (n : Nat) (h1 : 1 ≤ n) (h26 : n ≤ 26) :
    ∃ labels, lettersSequence n = .ok labels ∧ labels.length = n := by
  refine ⟨((List.range 26).map (fun i => String.mk [Char.ofNat (65 + i)])).take n, ?_, ?_⟩
  · simp only [lettersSequence]
    rw [if_neg (by omega), if_neg (by omega)]
  · rw [List.length_take, List.length_map, List.length_range]
    omega

theorem backfillLoop_length (theme : String) :
    ∀ (lbls : List String) (idx : Nat) (fs : List FrameObj),
      idx ≤ fs.length → idx + lbls.length ≤ (backfillLoop theme lbls idx fs).length := by
  intro lbls
  induction lbls with
  | nil => intro idx fs h; simpa [backfillLoop] using h
  | cons lbl rest ih =>
    intro idx fs h
    by_cases hlt : idx < fs.length
    · simp only [backfillLoop, if_pos hlt]
      have := ih (idx + 1) (fs.set idx (setdefaultA
        (setdefaultA (fs.getD idx []) "id" (.str lbl)) "change_from_previous"
        (if idx = 0 then .null else .str fallbackChange)))
        (by rw [List.length_set]; omega)
      simp only [List.length_set] at this
      simp only [List.length_cons]
      omega
    · simp only [backfillLoop, if_neg hlt]
      have := ih (idx + 1) (fs ++ [[("id", JValue.str lbl),
        ("prompt", JValue.str (theme ++ " frame " ++ lbl ++ " in consistent style.")),
        ("change_from_previous", if idx = 0 then JValue.null else .str fallbackChange)]])
        (by rw [List.length_append]; simp only [List.length_cons, List.length_nil]; omega)
      simp only [List.length_append, List.length_cons, List.length_nil] at this
      simp only [List.length_cons]
      omega

/-! ## Claim theorems -/

/-- Claim C1: in `generate_all_segments`, the start image passed to
`generate_segment_for_pair` for segment 0 is the keyframe image of the
first frame taken from the image map, and for every later segment `k+1`
it is exactly the value `extract_last_frame` returned for the clip
produced for segment `k` (whose `_last.png` output path is recorded in
the trace); moreover the returned clip list is exactly the list of clip
paths those calls produced. -/
theorem generate_all_segments_chains_extracted_last_frames
    (oracle : SegOracle) (map : List (String × String)) (f0 : Frame) (rest : List Frame)
    (dir : String) :
    (0 < (generate_all_segments oracle map (f0 :: rest) dir).1.length →
      lookupA map (effIdV f0 0)
        = some (((generate_all_segments oracle map (f0 :: rest) dir).1.getD 0
            default).startImage)) ∧
    (∀ k, k + 1 < (generate_all_segments oracle map (f0 :: rest) dir).1.length →
      ((generate_all_segments oracle map (f0 :: rest) dir).1.getD (k + 1)
          default).startImage
        = oracle.lastFrame
            ((generate_all_segments oracle map (f0 :: rest) dir).1.getD k
              default).generated
            ((generate_all_segments oracle map (f0 :: rest) dir).1.getD k
              default).lastImagePath) ∧
    (∀ clips, (generate_all_segments oracle map (f0 :: rest) dir).2 = .ok clips →
      clips = ((generate_all_segments oracle map (f0 :: rest) dir).1).map
        SegCall.generated) := by
  cases rest with
  | nil =>
    refine ⟨?_, ?_, ?_⟩ <;> simp [generate_all_segments]
  | cons r1 rest2 =>
    cases hl : lookupA map (effIdV f0 0) with
    | none =>
      refine ⟨?_, ?_, ?_⟩ <;> simp [generate_all_segments, hl]
    | some p =>
      have hunf : generate_all_segments oracle map (f0 :: r1 :: rest2) dir
          = segLoop oracle map (dir ++ "/segments") (r1 :: rest2) 0 (effIdV f0 0) p := by
        simp [generate_all_segments, hl]
      refine ⟨?_, ?_, ?_⟩
      · intro h
        rw [hunf] at h ⊢
        rw [segLoop_head_start oracle map (dir ++ "/segments") (r1 :: rest2) 0
          (effIdV f0 0) p h]
        try exact hl
      · intro k h
        rw [hunf] at h ⊢
        exact segLoop_start_chain oracle map (dir ++ "/segments") (r1 :: rest2) 0
          (effIdV f0 0) p k h
      · intro clips h
        rw [hunf] at h ⊢
        exact segLoop_ok_clips oracle map (dir ++ "/segments") (r1 :: rest2) 0
          (effIdV f0 0) p clips h

/-- Witness for C1 at a concrete three-frame run. -/
theorem generate_all_segments_chains_extracted_last_frames_witness :
    lookupA [("A", "imgA"), ("B", "imgB"), ("C", "imgC")]
        (effIdV ⟨some "A", none, none⟩ 0)
      = some (((generate_all_segments realOracle
          [("A", "imgA"), ("B", "imgB"), ("C", "imgC")]
          [⟨some "A", none, none⟩, ⟨some "B", none, some "move"⟩, ⟨some "C", none, none⟩]
          "out").1.getD 0 default).startImage) ∧
    ((generate_all_segments realOracle [("A", "imgA"), ("B", "imgB"), ("C", "imgC")]
        [⟨some "A", none, none⟩, ⟨some "B", none, some "move"⟩, ⟨some "C", none, none⟩]
        "out").1.getD 1 default).startImage
      = realOracle.lastFrame
          ((generate_all_segments realOracle [("A", "imgA"), ("B", "imgB"), ("C", "imgC")]
            [⟨some "A", none, none⟩, ⟨some "B", none, some "move"⟩, ⟨some "C", none, none⟩]
            "out").1.getD 0 default).generated
          ((generate_all_segments realOracle [("A", "imgA"), ("B", "imgB"), ("C", "imgC")]
            [⟨some "A", none, none⟩, ⟨some "B", none, some "move"⟩, ⟨some "C", none, none⟩]
            "out").1.getD 0 default).lastImagePath := by
  have h := generate_all_segments_chains_extracted_last_frames realOracle
    [("A", "imgA"), ("B", "imgB"), ("C", "imgC")] ⟨some "A", none, none⟩
    [⟨some "B", none, some "move"⟩, ⟨some "C", none, none⟩] "out"
  exact ⟨h.1 (by decide), h.2.1 0 (by decide)⟩

/-- Claim C2: with at least two frames and every descriptor id present
in the image map, `generate_all_segments` succeeds and returns exactly
N−1 clip paths, the k-th being the clip of segment index k. -/
theorem generate_all_segments_count_and_order
    (map : List (String × String)) (frames : List Frame) (dir : String)
    (h2 : 2 ≤ frames.length) (hp : allIdsPresent map frames = true) :
    ∃ clips, (generate_all_segments realOracle map frames dir).2 = .ok clips ∧
      clips.length = frames.length - 1 ∧
      ∀ k, k < clips.length → ∃ a b,
        clips.getD k "" = dir ++ "/segments" ++ "/segment_" ++ pad3 k ++ "_" ++ a ++ "_"
          ++ b ++ ".mp4" := by
  cases frames with
  | nil => simp at h2
  | cons f0 rest =>
    cases rest with
    | nil => simp at h2
    | cons f1 rest2 =>
      simp only [allIdsPresent, Bool.and_eq_true] at hp
      obtain ⟨p, hl⟩ := Option.isSome_iff_exists.mp hp.1
      have hunf : generate_all_segments realOracle map (f0 :: f1 :: rest2) dir
          = segLoop realOracle map (dir ++ "/segments") (f1 :: rest2) 0 (effIdV f0 0) p := by
        simp [generate_all_segments, hl]
      obtain ⟨clips, hok, hlen, hshape⟩ := segLoop_ok_of_present map (dir ++ "/segments")
        (f1 :: rest2) 0 (effIdV f0 0) p hp.2
      refine ⟨clips, ?_, ?_, ?_⟩
      · rw [hunf]; exact hok
      · rw [hlen]; simp
      · intro k hk
        obtain ⟨a, b, hab⟩ := hshape k hk
        exact ⟨a, b, by simpa using hab⟩

/-- Witness for C2 at a concrete two-frame run. -/
theorem generate_all_segments_count_and_order_witness :
    ∃ clips, (generate_all_segments realOracle [("A", "a.png"), ("B", "b.png")]
        [⟨some "A", none, none⟩, ⟨some "B", none, some "move"⟩] "out").2 = .ok clips ∧
      clips.length = ([⟨some "A", none, none⟩, ⟨some "B", none, some "move"⟩] :
        List Frame).length - 1 ∧
      ∀ k, k < clips.length → ∃ a b,
        clips.getD k "" = "out" ++ "/segments" ++ "/segment_" ++ pad3 k ++ "_" ++ a ++ "_"
          ++ b ++ ".mp4" :=
  generate_all_segments_count_and_order [("A", "a.png"), ("B", "b.png")]
    [⟨some "A", none, none⟩, ⟨some "B", none, some "move"⟩] "out" (by decide) (by decide)

/-- Claim C8: if the image map lacks an entry for the first missing
descriptor id (position j, every earlier position present), then
`generate_all_segments` raises a `KeyError` whose message embeds
`id=<missing id>`, and only the j−1 earlier segment-generation calls
were made — none for the pair involving the missing frame. -/
theorem generate_all_segments_missing_id_error
    (o : SegOracle) (map : List (String × String)) (frames : List Frame) (dir : String)
    (j : Nat) (h2 : 2 ≤ frames.length) (hj : j < frames.length)
    (hpre : ∀ i, i < j → (lookupA map (effIdV (frames.getD i default) i)).isSome)
    (hmiss : lookupA map (effIdV (frames.getD j default) j) = none) :
    (generate_all_segments o map frames dir).1.length = j - 1 ∧
    ∃ msg, (generate_all_segments o map frames dir).2 = .error (.keyError msg) ∧
      ∃ pre, msg = pre ++ "id=" ++ effIdV (frames.getD j default) j := by
  cases frames with
  | nil => simp at h2
  | cons f0 rest =>
    cases rest with
    | nil => simp at h2
    | cons f1 rest2 =>
      cases j with
      | zero =>
        simp only [List.getD_cons_zero] at hmiss ⊢
        have hunf : generate_all_segments o map (f0 :: f1 :: rest2) dir
            = ([], .error (.keyError
                ("frame_image_paths is missing image for first frame id="
                  ++ effIdV f0 0))) := by
          simp [generate_all_segments, hmiss]
        rw [hunf]
        refine ⟨rfl, _, rfl, "frame_image_paths is missing image for first frame ", ?_⟩
        have hlit : ("frame_image_paths is missing image for first frame " ++ "id="
            : String) = "frame_image_paths is missing image for first frame id=" := rfl
        rw [← hlit]
      | succ j =>
        have h0 : (lookupA map (effIdV f0 0)).isSome := by
          have := hpre 0 (Nat.succ_pos j)
          simpa using this
        obtain ⟨p, hl⟩ := Option.isSome_iff_exists.mp h0
        have hunf : generate_all_segments o map (f0 :: f1 :: rest2) dir
            = segLoop o map (dir ++ "/segments") (f1 :: rest2) 0 (effIdV f0 0) p := by
          simp [generate_all_segments, hl]
        have hpre2 : ∀ i, i < j →
            (lookupA map (effIdV ((f1 :: rest2).getD i default) (0 + i + 1))).isSome := by
          intro i hi
          have := hpre (i + 1) (by omega)
          simp only [List.getD_cons_succ] at this
          simpa [Nat.add_comm] using this
        have hmiss2 : lookupA map
            (effIdV ((f1 :: rest2).getD j default) (0 + j + 1)) = none := by
          simp only [List.getD_cons_succ] at hmiss
          simpa [Nat.add_comm] using hmiss
        obtain ⟨hlen, herr⟩ := segLoop_first_missing o map (dir ++ "/segments")
          (f1 :: rest2) 0 (effIdV f0 0) p j (by simpa using Nat.lt_of_succ_lt_succ hj)
          hpre2 hmiss2
        rw [hunf]
        constructor
        · simpa using hlen
        · refine ⟨"frame_image_paths is missing image for frame id="
            ++ effIdV ((f1 :: rest2).getD j default) (0 + j + 1), herr,
            "frame_image_paths is missing image for frame ", ?_⟩
          simp only [List.getD_cons_succ, Nat.zero_add]
          rfl

/-- Witness for C8: a three-frame run whose map lacks the id at
position 2. -/
theorem generate_all_segments_missing_id_error_witness :
    (generate_all_segments realOracle [("A", "a.png"), ("B", "b.png")]
        [⟨some "A", none, none⟩, ⟨some "B", none, none⟩, ⟨some "C", none, none⟩]
        "out").1.length = 2 - 1 ∧
    ∃ msg, (generate_all_segments realOracle [("A", "a.png"), ("B", "b.png")]
        [⟨some "A", none, none⟩, ⟨some "B", none, none⟩, ⟨some "C", none, none⟩]
        "out").2 = .error (.keyError msg) ∧
      ∃ pre, msg = pre ++ "id="
        ++ effIdV (([⟨some "A", none, none⟩, ⟨some "B", none, none⟩,
            ⟨some "C", none, none⟩] : List Frame).getD 2 default) 2 :=
  generate_all_segments_missing_id_error realOracle [("A", "a.png"), ("B", "b.png")]
    [⟨some "A", none, none⟩, ⟨some "B", none, none⟩, ⟨some "C", none, none⟩] "out" 2
    (by decide) (by decide) (by decide) (by decide)

/-- Claim C3: in `generate_storyboard_images` there is one generation
call per frame, and the anchor list of the i-th call is the optional
reference blob (exactly one when supplied, none otherwise) followed by
the i previously generated blobs in generation order — the blob
produced by call j being `gen` applied to call j's own arguments. -/
theorem generate_storyboard_images_anchor_accumulator
    (gen : String → List Bytes → Bytes) (frames : List Frame) (dir : String)
    (refImage : Option Bytes) :
    (generate_storyboard_images gen frames dir refImage).2.length = frames.length ∧
    ∀ i, i < (generate_storyboard_images gen frames dir refImage).2.length →
      ((generate_storyboard_images gen frames dir refImage).2.getD i default).refs
        = refImage.toList
          ++ (((generate_storyboard_images gen frames dir refImage).2.take i).map
              (fun c => gen c.prompt c.refs)) ∧
      ((generate_storyboard_images gen frames dir refImage).2.getD i default).refs.length
        = refImage.toList.length + i := by
  obtain ⟨hlen, hrefs⟩ := sbLoop_trace gen (dir ++ "/frames") refImage.toList frames [] []
  refine ⟨hlen, ?_⟩
  intro i hi
  have hmain := hrefs i hi
  simp only [List.append_nil] at hmain
  have hmain2 : ((generate_storyboard_images gen frames dir refImage).2.getD i
      default).refs
      = refImage.toList
        ++ (((generate_storyboard_images gen frames dir refImage).2.take i).map
            (fun c => gen c.prompt c.refs)) := by
    simpa [generate_storyboard_images] using hmain
  refine ⟨hmain2, ?_⟩
  rw [hmain2]
  rw [List.length_append, List.length_map, List.length_take]
  have : min i (generate_storyboard_images gen frames dir refImage).2.length = i :=
    Nat.min_eq_left (Nat.le_of_lt hi)
  rw [this]

/-- Witness for C3: three frames, a reference image, checked at the
third call. -/
theorem generate_storyboard_images_anchor_accumulator_witness :
    (generate_storyboard_images (fun _ rs => [rs.length])
        [⟨some "A", some "pa", none⟩, ⟨some "B", none, some "mv"⟩, ⟨none, none, none⟩]
        "out" (some [7])).2.length
      = ([⟨some "A", some "pa", none⟩, ⟨some "B", none, some "mv"⟩, ⟨none, none, none⟩] :
          List Frame).length ∧
    2 < (generate_storyboard_images (fun _ rs => [rs.length])
        [⟨some "A", some "pa", none⟩, ⟨some "B", none, some "mv"⟩, ⟨none, none, none⟩]
        "out" (some [7])).2.length ∧
    ((generate_storyboard_images (fun _ rs => [rs.length])
        [⟨some "A", some "pa", none⟩, ⟨some "B", none, some "mv"⟩, ⟨none, none, none⟩]
        "out" (some [7])).2.getD 2 default).refs
      = (some [7] : Option Bytes).toList
        ++ (((generate_storyboard_images (fun _ rs => [rs.length])
            [⟨some "A", some "pa", none⟩, ⟨some "B", none, some "mv"⟩, ⟨none, none, none⟩]
            "out" (some [7])).2.take 2).map (fun c => (fun _ rs => [rs.length]) c.prompt
              c.refs)) := by
  have h := generate_storyboard_images_anchor_accumulator (fun _ rs => [rs.length])
    [⟨some "A", some "pa", none⟩, ⟨some "B", none, some "mv"⟩, ⟨none, none, none⟩]
    "out" (some [7])
  exact ⟨h.1, by decide, (h.2 2 (by decide)).1⟩

/-- Counterexample to claim C4 as stated: when two distinct frame ids
alias the same file path, regenerating one of them rewrites the file of
the other, non-targeted id, so that id's content is not preserved even
though its file existed before the call. -/
theorem regenerate_aliased_path_counterexample :
    (["A"] : List String).contains "B" = false ∧
    effPathOfId [("A", "f.png"), ("B", "f.png")] ("run" ++ "/frames") "B" = "f.png" ∧
    lookupA ([("f.png", [1])] : FS) "f.png" = some [1] ∧
    lookupA (regenerate_storyboard_images (fun _ _ => [9])
        [⟨some "A", some "p", none⟩, ⟨some "B", some "p", none⟩]
        [("A", "f.png"), ("B", "f.png")] "run" ["A"] none [("f.png", [1])]).1 "f.png"
      = some [9] := by
  decide

/-- Claim C4, amended: provided no two distinct descriptor ids resolve
to the same image path, a non-targeted frame id whose file exists is
never rewritten (its content is identical before and after); every
descriptor's effective path exists after the call (absent files are
auto-regenerated); and the returned map has an entry — its effective
path — for every descriptor id. -/
theorem regenerate_preserves_non_targeted
    (gen : String → List Bytes → Bytes) (frames : List Frame)
    (map : List (String × String)) (runDir : String) (frameIds : List String)
    (refImage : Option Bytes) (fs : FS) (f : Frame)
    (_hmem : f ∈ frames)
    (hnt : frameIds.contains (effIdI f) = false)
    (hex : (lookupA fs (effPathOfId map (runDir ++ "/frames") (effIdI f))).isSome)
    (hinj : ∀ g, g ∈ frames →
      effPathOfId map (runDir ++ "/frames") (effIdI g)
        = effPathOfId map (runDir ++ "/frames") (effIdI f) → effIdI g = effIdI f) :
    lookupA (regenerate_storyboard_images gen frames map runDir frameIds refImage fs).1
        (effPathOfId map (runDir ++ "/frames") (effIdI f))
      = lookupA fs (effPathOfId map (runDir ++ "/frames") (effIdI f)) ∧
    (∀ g, g ∈ frames →
      (lookupA (regenerate_storyboard_images gen frames map runDir frameIds refImage
          fs).1 (effPathOfId map (runDir ++ "/frames") (effIdI g))).isSome) ∧
    (∀ g, g ∈ frames →
      lookupA (regenerate_storyboard_images gen frames map runDir frameIds refImage
          fs).2 (effIdI g)
        = some (effPathOfId map (runDir ++ "/frames") (effIdI g))) := by
  refine ⟨?_, ?_, ?_⟩
  · refine regenLoop_preserve gen (runDir ++ "/frames") frameIds map refImage.toList
      frames [] fs map _ ?_ hex
    intro g hg hgp
    rw [hinj g hg hgp]
    exact hnt
  · intro g hg
    exact regenLoop_exists_after gen (runDir ++ "/frames") frameIds map refImage.toList
      frames [] fs map g hg
  · intro g hg
    exact regenLoop_updated_entry gen (runDir ++ "/frames") frameIds map refImage.toList
      frames [] fs map g hg

/-- Witness for the amended C4: distinct per-id paths, id B untouched,
everything present afterwards. -/
theorem regenerate_preserves_non_targeted_witness :
    lookupA (regenerate_storyboard_images (fun _ _ => [9])
        [⟨some "A", some "p", none⟩, ⟨some "B", some "q", none⟩]
        [("A", "a.png"), ("B", "b.png")] "run" ["A"] none
        [("b.png", [1])]).1
        (effPathOfId [("A", "a.png"), ("B", "b.png")] ("run" ++ "/frames")
          (effIdI ⟨some "B", some "q", none⟩))
      = lookupA ([("b.png", [1])] : FS)
          (effPathOfId [("A", "a.png"), ("B", "b.png")] ("run" ++ "/frames")
            (effIdI ⟨some "B", some "q", none⟩)) ∧
    (∀ g, g ∈ ([⟨some "A", some "p", none⟩, ⟨some "B", some "q", none⟩] : List Frame) →
      (lookupA (regenerate_storyboard_images (fun _ _ => [9])
          [⟨some "A", some "p", none⟩, ⟨some "B", some "q", none⟩]
          [("A", "a.png"), ("B", "b.png")] "run" ["A"] none
          [("b.png", [1])]).1
          (effPathOfId [("A", "a.png"), ("B", "b.png")] ("run" ++ "/frames")
            (effIdI g))).isSome) ∧
    (∀ g, g ∈ ([⟨some "A", some "p", none⟩, ⟨some "B", some "q", none⟩] : List Frame) →
      lookupA (regenerate_storyboard_images (fun _ _ => [9])
          [⟨some "A", some "p", none⟩, ⟨some "B", some "q", none⟩]
          [("A", "a.png"), ("B", "b.png")] "run" ["A"] none
          [("b.png", [1])]).2 (effIdI g)
        = some (effPathOfId [("A", "a.png"), ("B", "b.png")] ("run" ++ "/frames")
            (effIdI g))) :=
  regenerate_preserves_non_targeted (fun _ _ => [9])
    [⟨some "A", some "p", none⟩, ⟨some "B", some "q", none⟩]
    [("A", "a.png"), ("B", "b.png")] "run" ["A"] none [("b.png", [1])]
    ⟨some "B", some "q", none⟩ (by decide) (by decide) (by decide) (by decide)

/-- Counterexample to claim C5 as stated: with the media tool binary
absent and two existing clips, `concat_clips` does not return the
output path with a placeholder — it raises the `FileNotFoundError`
coming from the failed process spawn (no placeholder-writing branch
exists in the function). -/
theorem concat_clips_missing_binary_counterexample :
    (concat_clips ⟨false, 0, "", 0, ""⟩ (fun _ => true) ["c1", "c2"] "final.mp4"
        true).outcome = .fileNotFoundError "ffmpeg" ∧
    (concat_clips ⟨false, 0, "", 0, ""⟩ (fun _ => true) ["c1", "c2"] "final.mp4"
        true).outcome ≠ .ok "final.mp4" := by
  decide

/-- Claim C5, amended: when the media tool binary is absent,
`concat_clips` on a non-empty list of existing clips raises the
process-spawn `FileNotFoundError` (after creating the paths manifest,
which the cleanup still removes, and without any tool run); it does not
degrade to a placeholder — that fallback exists only in
`extract_last_frame`. -/
theorem concat_clips_missing_binary_raises
    (env : FFmpegEnv) (existsF : String → Bool) (clips : List String) (out : String)
    (reenc : Bool) (hbin : env.binaryPresent = false) (hne : clips ≠ [])
    (hex : ∀ c, c ∈ clips → existsF c = true) :
    concat_clips env existsF clips out reenc
      = ⟨.fileNotFoundError "ffmpeg", true, true, 0⟩ := by
  have hfind : clips.find? (fun c => !(existsF c)) = none := by
    apply List.find?_eq_none.mpr
    intro c hc
    simp [hex c hc]
  simp [concat_clips, hne, hfind, hbin]

/-- Witness for the amended C5. -/
theorem concat_clips_missing_binary_raises_witness :
    concat_clips ⟨false, 1, "x", 1, "y"⟩ (fun _ => true) ["c1", "c2"] "final.mp4" true
      = ⟨.fileNotFoundError "ffmpeg", true, true, 0⟩ :=
  concat_clips_missing_binary_raises ⟨false, 1, "x", 1, "y"⟩ (fun _ => true)
    ["c1", "c2"] "final.mp4" true (by decide) (by decide) (by decide)

/-- Claim C7: an empty clip list raises `ValueError`, and a list whose
first non-existing clip is `c` raises `FileNotFoundError` naming `c` —
in both cases before the paths manifest is created and before any tool
invocation. -/
theorem concat_clips_validation_before_tool
    (env : FFmpegEnv) (existsF : String → Bool) (clips : List String) (out : String)
    (reenc : Bool) :
    (clips = [] → concat_clips env existsF clips out reenc
      = ⟨.valueError "No clip paths provided for concatenation", false, false, 0⟩) ∧
    (∀ c, clips.find? (fun x => !(existsF x)) = some c →
      concat_clips env existsF clips out reenc
        = ⟨.fileNotFoundError ("Clip not found: " ++ c), false, false, 0⟩) := by
  constructor
  · intro h
    simp [concat_clips, h]
  · intro c hc
    have hne : ¬(clips = []) := by
      intro h
      subst h
      simp at hc
    simp [concat_clips, hne, hc]

/-- Witness for C7: both validation failures at concrete inputs. -/
theorem concat_clips_validation_before_tool_witness :
    concat_clips ⟨true, 0, "", 0, ""⟩ (fun _ => true) [] "final.mp4" true
      = ⟨.valueError "No clip paths provided for concatenation", false, false, 0⟩ ∧
    concat_clips ⟨true, 0, "", 0, ""⟩ (fun c => c = "c1") ["c1", "c2", "c3"] "final.mp4"
        true
      = ⟨.fileNotFoundError ("Clip not found: " ++ "c2"), false, false, 0⟩ :=
  ⟨(concat_clips_validation_before_tool ⟨true, 0, "", 0, ""⟩ (fun _ => true) []
      "final.mp4" true).1 rfl,
   (concat_clips_validation_before_tool ⟨true, 0, "", 0, ""⟩ (fun c => c = "c1")
      ["c1", "c2", "c3"] "final.mp4" true).2 "c2" (by decide)⟩

/-- Claim C10: `concat_clips` removes the temporary paths manifest in
exactly the cases it created one — the `finally` block runs whether the
stream-copy succeeds, the re-encode fallback succeeds, both fail with
an error raised, or the binary is missing; no manifest is left behind. -/
theorem concat_clips_manifest_always_removed
    (env : FFmpegEnv) (existsF : String → Bool) (clips : List String) (out : String)
    (reenc : Bool) :
    (concat_clips env existsF clips out reenc).manifestRemoved
      = (concat_clips env existsF clips out reenc).manifestCreated := by
  unfold concat_clips
  repeat' split
  all_goals rfl

/-- Counterexample to claim C6 as stated: a malformed response that is
plain prose with no JSON object makes `generate_frame_prompts` fail
with the `ValueError` from `_extract_json` instead of backfilling — the
deterministic backfill only repairs missing fields and short frame
lists inside a successfully parsed object. -/
theorem generate_frame_prompts_non_json_counterexample :
    (generate_frame_prompts (fun _ => none)
        "The model replied with prose and no JSON object at all." "city" 3).result
      = .error (.valueError "Model response did not contain JSON content") ∧
    (generate_frame_prompts (fun _ => none)
        "The model replied with prose and no JSON object at all." "city" 3).serviceCalled
      = true := by
  constructor
  · rfl
  · rfl

/-- Claim C6, amended: whenever the response does contain an extractable
JSON object (however incomplete — missing ids, missing
change-from-previous fields, or fewer frame entries than requested),
`generate_frame_prompts` does not fail: it backfills deterministically
from the theme text and returns exactly the requested number of frame
descriptors.  A response with no parseable JSON object instead raises
`ValueError`. -/
theorem generate_frame_prompts_backfills_parsed_responses
    (parse : String → Option PData) (resp theme : String) (n : Nat) (pdata : PData)
    (h2 : 2 ≤ n) (h26 : n ≤ 26) (hok : extractJson parse resp = .ok pdata) :
    ∃ fs, (generate_frame_prompts parse resp theme n).result = .ok fs ∧
      fs.length = n := by
  obtain ⟨labels, hlab, hlen⟩ := lettersSequence_ok n (by omega) h26
  have hunf : generate_frame_prompts parse resp theme n
      = ⟨.ok ((backfillLoop theme labels 0 pdata.frames).take n), true⟩ := by
    simp only [generate_frame_prompts, if_neg (by omega : ¬(n < 2)), hlab, hok]
  refine ⟨(backfillLoop theme labels 0 pdata.frames).take n, by rw [hunf], ?_⟩
  rw [List.length_take]
  have hge := backfillLoop_length theme labels 0 pdata.frames (Nat.zero_le _)
  rw [Nat.zero_add, hlen] at hge
  omega

/-- Witness for the amended C6: a parsed object with one incomplete
frame entry, requested length 3. -/
theorem generate_frame_prompts_backfills_parsed_responses_witness :
    ∃ fs, (generate_frame_prompts (fun _ => some ⟨[[("prompt", JValue.str "pA")]]⟩)
        "x {0} y" "city" 3).result = .ok fs ∧ fs.length = 3 :=
  generate_frame_prompts_backfills_parsed_responses
    (fun _ => some ⟨[[("prompt", JValue.str "pA")]]⟩) "x {0} y" "city" 3
    ⟨[[("prompt", JValue.str "pA")]]⟩ (by decide) (by decide) (by decide)

/-- Claim C9: `generate_frame_prompts` raises the frame-count
`ValueError` without reaching the text-generation service exactly when
the requested count is below 2 or above 26; for counts in [2, 26] the
service is reached and neither count-validation error can be the
outcome. -/
theorem generate_frame_prompts_count_validation
    (parse : String → Option PData) (resp theme : String) (n : Nat) :
    (n < 2 → generate_frame_prompts parse resp theme n
      = ⟨.error (.valueError "num_frames must be at least 2"), false⟩) ∧
    (26 < n → generate_frame_prompts parse resp theme n
      = ⟨.error (.valueError "num_frames exceeds supported frame labels"), false⟩) ∧
    (2 ≤ n → n ≤ 26 →
      (generate_frame_prompts parse resp theme n).serviceCalled = true ∧
      (generate_frame_prompts parse resp theme n).result
        ≠ .error (.valueError "num_frames must be at least 2") ∧
      (generate_frame_prompts parse resp theme n).result
        ≠ .error (.valueError "num_frames exceeds supported frame labels")) := by
  refine ⟨?_, ?_, ?_⟩
  · intro h
    simp [generate_frame_prompts, h]
  · intro h
    have hn2 : ¬(n < 2) := by omega
    have hseq : lettersSequence n = .error "num_frames exceeds supported frame labels" := by
      simp only [lettersSequence]
      rw [if_neg (by omega), if_pos h]
    simp [generate_frame_prompts, hn2, hseq]
  · intro h2 h26
    obtain ⟨labels, hlab, _⟩ := lettersSequence_ok n (by omega) h26
    have hn2 : ¬(n < 2) := by omega
    cases hex : extractJson parse resp with
    | error e =>
      have hunf : generate_frame_prompts parse resp theme n
          = ⟨.error (.valueError e), true⟩ := by
        simp only [generate_frame_prompts, if_neg hn2, hlab, hex]
      rw [hunf]
      have he : e = "Model response did not contain JSON content"
          ∨ e = "json.loads: invalid JSON" := by
        simp only [extractJson] at hex
        cases hbs : braceSpan (cleanFences resp) with
        | none => rw [hbs] at hex; simp at hex; exact Or.inl hex.symm
        | some sub =>
          rw [hbs] at hex
          simp only [] at hex
          cases hp : parse sub with
          | none => rw [hp] at hex; simp at hex; exact Or.inr hex.symm
          | some d => rw [hp] at hex; simp at hex
      refine ⟨rfl, ?_, ?_⟩ <;>
        rcases he with he | he <;> subst he <;> simp
    | ok pdata =>
      have hunf : generate_frame_prompts parse resp theme n
          = ⟨.ok ((backfillLoop theme labels 0 pdata.frames).take n), true⟩ := by
        simp only [generate_frame_prompts, if_neg hn2, hlab, hex]
      rw [hunf]
      refine ⟨rfl, ?_, ?_⟩ <;> simp

/-- Witness for C9: the three regimes at counts 1, 27 and 2. -/
theorem generate_frame_prompts_count_validation_witness :
    generate_frame_prompts (fun _ => none) "no json" "t" 1
      = ⟨.error (.valueError "num_frames must be at least 2"), false⟩ ∧
    generate_frame_prompts (fun _ => none) "no json" "t" 27
      = ⟨.error (.valueError "num_frames exceeds supported frame labels"), false⟩ ∧
    (generate_frame_prompts (fun _ => none) "no json" "t" 2).serviceCalled = true :=
  ⟨(generate_frame_prompts_count_validation (fun _ => none) "no json" "t" 1).1
      (by decide),
   (generate_frame_prompts_count_validation (fun _ => none) "no json" "t" 27).2.1
      (by decide),
   ((generate_frame_prompts_count_validation (fun _ => none) "no json" "t" 2).2.2
      (by decide) (by decide)).1⟩

end GenVideo
